import Mathlib

/-!
Verification of the CSS-like styling engine in `src/utils/MuiCss.cpp`
(property interning, style inheritance resolution, font cache, color parsing).

Modelling conventions used throughout this development:

* C++ `float` values (font sizes, border widths, percentage components) are
  modelled by exact rationals `Rat`; the spec itself describes the arithmetic
  (`scaled by 2.55 and truncated to integer`) over exact numbers.
* 32-bit `ARGB` words are `Nat` with an explicit `% 2^32` mask where the code
  casts to `ARGB`.
* Heap pointers to interned `Prop` objects are modelled by `PropPtr`, a pair of
  the index at which the object was appended to the process-wide `gAllProps`
  vector together with the stored value.  The vector is append-only, so the
  index is a faithful stand-in for the address, and pointer equality is
  equality of `PropPtr`.
* A fatal assertion (`CrashIf`) is modelled as an `Option`-valued function
  returning `none`.
* The source name `Prop` collides with Lean's universe of propositions, so the
  structure is named `CssProp` here; all other names follow the source.
-/

namespace MuiCss

/-- Modelled from the spec: the closed set of property tags declared in
`MuiCss.h` (the header is not part of the provided sources); §3 of the spec
lists exactly these fourteen tags. -/
inductive PropType where
  | PropFontName
  | PropFontSize
  | PropFontWeight
  | PropPadding
  | PropBorderTopWidth
  | PropBorderRightWidth
  | PropBorderBottomWidth
  | PropBorderLeftWidth
  | PropColor
  | PropBgColor
  | PropBorderTopColor
  | PropBorderRightColor
  | PropBorderBottomColor
  | PropBorderLeftColor
deriving DecidableEq, Repr

/-- `IsWidthProp` from MuiCss.cpp. -/
def IsWidthProp (type : PropType) : Bool :=
  (type == PropType.PropBorderTopWidth) ||
  (type == PropType.PropBorderRightWidth) ||
  (type == PropType.PropBorderBottomWidth) ||
  (type == PropType.PropBorderLeftWidth)

/-- `IsColorProp` from MuiCss.cpp. -/
def IsColorProp (type : PropType) : Bool :=
  (type == PropType.PropColor) ||
  (type == PropType.PropBgColor) ||
  (type == PropType.PropBorderTopColor) ||
  (type == PropType.PropBorderRightColor) ||
  (type == PropType.PropBorderBottomColor) ||
  (type == PropType.PropBorderLeftColor)

/-- GDI+ `LinearGradientMode` (external enum consumed by the code). -/
inductive LinearGradientMode where
  | horizontal
  | vertical
  | forwardDiagonal
  | backwardDiagonal
deriving DecidableEq, Repr

/-- Modelled from the spec: `ColorData` as declared in the header — a tag
distinguishing a solid color (one 32-bit ARGB value) from a linear gradient
(mode plus start and end ARGB values). -/
inductive ColorData where
  | solid (color : Nat)
  | gradientLinear (mode : LinearGradientMode) (startColor endColor : Nat)
deriving DecidableEq, Repr

/-- `ColorData::Eq` from MuiCss.cpp: tag must match, then the relevant fields
are compared exactly. -/
def ColorData.eq : ColorData → ColorData → Bool
  | ColorData.solid c1, ColorData.solid c2 => c1 == c2
  | ColorData.gradientLinear m1 s1 e1, ColorData.gradientLinear m2 s2 e2 =>
      (m1 == m2) && (s1 == s2) && (e1 == e2)
  | _, _ => false

theorem ColorData.eq_iff_eq (c d : ColorData) : ColorData.eq c d = true ↔ c = d := by
  cases c <;> cases d <;> simp [ColorData.eq, and_assoc]

/-- Modelled from the spec: `PaddingData` — four integers (top, right, bottom,
left). -/
structure PaddingData where
  top : Int
  right : Int
  bottom : Int
  left : Int
deriving DecidableEq, Repr

/-- The payload union inside `Prop` (header declaration): exactly one member
is active, selected by the tag at construction time. -/
inductive PropPayload where
  | fontName (name : String)
  | fontSize (size : Rat)
  | fontWeight (style : Nat)
  | padding (pd : PaddingData)
  | color (c : ColorData)
  | width (w : Rat)
deriving DecidableEq, Repr

def getFontName : PropPayload → Option String
  | PropPayload.fontName n => some n
  | _ => none

def getFontSize : PropPayload → Option Rat
  | PropPayload.fontSize s => some s
  | _ => none

def getFontWeight : PropPayload → Option Nat
  | PropPayload.fontWeight st => some st
  | _ => none

def getPadding : PropPayload → Option PaddingData
  | PropPayload.padding pd => some pd
  | _ => none

def getColor : PropPayload → Option ColorData
  | PropPayload.color c => some c
  | _ => none

def getWidth : PropPayload → Option Rat
  | PropPayload.width w => some w
  | _ => none

/-- The `Prop` value object of MuiCss.cpp: a tag plus the payload union.
(The source name `Prop` is Lean's sort of propositions, hence `CssProp`.) -/
structure CssProp where
  type : PropType
  payload : PropPayload
deriving DecidableEq, Repr

/-- Compare two optional payload projections the way the C++ union members are
compared: both must be present (the active member for the tag) and equal. -/
def optEqBy (f : α → α → Bool) : Option α → Option α → Bool
  | some a, some b => f a b
  | _, _ => false

/-- `Prop::Eq` from MuiCss.cpp: types must match, then the payload is compared
by the rule selected by the tag (string equality for font names, exact numeric
equality for sizes/weights/widths, field-wise equality for padding, structural
equality for colors). -/
def CssProp.eq (p other : CssProp) : Bool :=
  if p.type ≠ other.type then false
  else
    match p.type with
    | PropType.PropFontName =>
        optEqBy (fun a b => a == b) (getFontName p.payload) (getFontName other.payload)
    | PropType.PropFontSize =>
        optEqBy (fun a b => a == b) (getFontSize p.payload) (getFontSize other.payload)
    | PropType.PropFontWeight =>
        optEqBy (fun a b => a == b) (getFontWeight p.payload) (getFontWeight other.payload)
    | PropType.PropPadding =>
        optEqBy (fun a b => a == b) (getPadding p.payload) (getPadding other.payload)
    | t =>
        if IsColorProp t then
          optEqBy ColorData.eq (getColor p.payload) (getColor other.payload)
        else if IsWidthProp t then
          optEqBy (fun a b => a == b) (getWidth p.payload) (getWidth other.payload)
        else false

/-- Whether a payload is the active union member selected by the tag; the
per-tag equality rule of `Prop::Eq` only relates payloads of this shape. -/
def PayloadMatchesTag (t : PropType) (pl : PropPayload) : Bool :=
  match t with
  | PropType.PropFontName => (getFontName pl).isSome
  | PropType.PropFontSize => (getFontSize pl).isSome
  | PropType.PropFontWeight => (getFontWeight pl).isSome
  | PropType.PropPadding => (getPadding pl).isSome
  | t' =>
      if IsColorProp t' then (getColor pl).isSome
      else if IsWidthProp t' then (getWidth pl).isSome
      else false

theorem optEqBy_getFontName (pa pb : PropPayload) :
    optEqBy (fun a b => a == b) (getFontName pa) (getFontName pb) = true ↔
      ((getFontName pa).isSome ∧ pa = pb) := by
  cases pa <;> cases pb <;> simp [optEqBy, getFontName]

theorem optEqBy_getFontSize (pa pb : PropPayload) :
    optEqBy (fun a b => a == b) (getFontSize pa) (getFontSize pb) = true ↔
      ((getFontSize pa).isSome ∧ pa = pb) := by
  cases pa <;> cases pb <;> simp [optEqBy, getFontSize]

theorem optEqBy_getFontWeight (pa pb : PropPayload) :
    optEqBy (fun a b => a == b) (getFontWeight pa) (getFontWeight pb) = true ↔
      ((getFontWeight pa).isSome ∧ pa = pb) := by
  cases pa <;> cases pb <;> simp [optEqBy, getFontWeight]

theorem optEqBy_getPadding (pa pb : PropPayload) :
    optEqBy (fun a b => a == b) (getPadding pa) (getPadding pb) = true ↔
      ((getPadding pa).isSome ∧ pa = pb) := by
  cases pa <;> cases pb <;> simp [optEqBy, getPadding]

theorem optEqBy_getColor (pa pb : PropPayload) :
    optEqBy ColorData.eq (getColor pa) (getColor pb) = true ↔
      ((getColor pa).isSome ∧ pa = pb) := by
  cases pa <;> cases pb <;> simp [optEqBy, getColor, ColorData.eq_iff_eq]

theorem optEqBy_getWidth (pa pb : PropPayload) :
    optEqBy (fun a b => a == b) (getWidth pa) (getWidth pb) = true ↔
      ((getWidth pa).isSome ∧ pa = pb) := by
  cases pa <;> cases pb <;> simp [optEqBy, getWidth]

/-- Characterization of `Prop::Eq`: two props are equal exactly when the tags
agree, the first payload is the active member for that tag, and the payloads
coincide. -/
theorem CssProp.eq_iff (p q : CssProp) :
    CssProp.eq p q = true ↔
      (p.type = q.type ∧ PayloadMatchesTag p.type p.payload = true ∧ p.payload = q.payload) := by
  obtain ⟨pt, pa⟩ := p
  obtain ⟨qt, qa⟩ := q
  by_cases h : pt = qt
  · subst h
    simp only [CssProp.eq, PayloadMatchesTag]
    cases pt <;>
      simp [optEqBy_getFontName, optEqBy_getFontSize, optEqBy_getFontWeight,
        optEqBy_getPadding, optEqBy_getColor, optEqBy_getWidth, IsColorProp, IsWidthProp]
  · simp [CssProp.eq, h]

theorem CssProp.eq_symm {p q : CssProp} (h : CssProp.eq p q = true) :
    CssProp.eq q p = true := by
  rw [CssProp.eq_iff] at h ⊢
  obtain ⟨ht, hm, hp⟩ := h
  exact ⟨ht.symm, by rw [← ht, ← hp]; exact hm, hp.symm⟩

theorem CssProp.eq_trans {p q r : CssProp} (h1 : CssProp.eq p q = true)
    (h2 : CssProp.eq q r = true) : CssProp.eq p r = true := by
  rw [CssProp.eq_iff] at h1 h2 ⊢
  obtain ⟨ht1, hm1, hp1⟩ := h1
  obtain ⟨ht2, _, hp2⟩ := h2
  exact ⟨ht1.trans ht2, hm1, hp1.trans hp2⟩

/-! ### ARGB words and the `MKARGB`/`MKRGB` macros -/

/-- Truncation to a 32-bit word, modelling the C cast to `ARGB` (uint32). -/
def mask32 (x : Nat) : Nat := x % 4294967296

/-- The `MKARGB(a, r, g, b)` macro: each component is cast to `ARGB` and the
shifted components are OR-ed together. -/
def MKARGB (a r g b : Nat) : Nat :=
  (mask32 b ||| mask32 (mask32 g <<< 8) ||| mask32 (mask32 r <<< 16)) |||
    mask32 (mask32 a <<< 24)

/-- The `MKRGB(r, g, b)` macro: like `MKARGB` with alpha `0xff`. -/
def MKRGB (r g b : Nat) : Nat := MKARGB 0xff r g b

/-- The alpha byte (bits 24–31) of an ARGB word. -/
def alphaOf (c : Nat) : Nat := (c >>> 24) % 256

/-- The red byte (bits 16–23) of an ARGB word. -/
def redOf (c : Nat) : Nat := (c >>> 16) % 256

/-- The green byte (bits 8–15) of an ARGB word. -/
def greenOf (c : Nat) : Nat := (c >>> 8) % 256

/-- The blue byte (bits 0–7) of an ARGB word. -/
def blueOf (c : Nat) : Nat := c % 256

theorem shiftRight_or (x y n : Nat) : (x ||| y) >>> n = (x >>> n) ||| (y >>> n) := by
  apply Nat.eq_of_testBit_eq
  intro i
  simp [Nat.testBit_shiftRight, Nat.testBit_or]

/-- For in-range components, the alpha byte of `MKARGB a r g b` is `a`. -/
theorem alphaOf_MKARGB {a r g b : Nat} (ha : a < 256) (hr : r < 256) (hg : g < 256)
    (hb : b < 256) : alphaOf (MKARGB a r g b) = a := by
  have hm : ∀ x : Nat, x < 4294967296 → mask32 x = x := fun x hx => Nat.mod_eq_of_lt hx
  have hg8 : g <<< 8 < 2 ^ 16 := by
    rw [Nat.shiftLeft_eq]
    calc g * 2 ^ 8 < 256 * 2 ^ 8 :=
          Nat.mul_lt_mul_of_lt_of_le hg (le_refl _) (by norm_num)
      _ = 2 ^ 16 := by norm_num
  have hr16 : r <<< 16 < 2 ^ 24 := by
    rw [Nat.shiftLeft_eq]
    calc r * 2 ^ 16 < 256 * 2 ^ 16 :=
          Nat.mul_lt_mul_of_lt_of_le hr (le_refl _) (by norm_num)
      _ = 2 ^ 24 := by norm_num
  have ha24 : a <<< 24 < 2 ^ 32 := by
    rw [Nat.shiftLeft_eq]
    calc a * 2 ^ 24 < 256 * 2 ^ 24 :=
          Nat.mul_lt_mul_of_lt_of_le ha (le_refl _) (by norm_num)
      _ = 2 ^ 32 := by norm_num
  have e1 : mask32 b = b := hm b (lt_trans hb (by norm_num))
  have e2 : mask32 (mask32 g <<< 8) = g <<< 8 := by
    rw [hm g (lt_trans hg (by norm_num))]
    exact hm _ (lt_trans hg8 (by norm_num))
  have e3 : mask32 (mask32 r <<< 16) = r <<< 16 := by
    rw [hm r (lt_trans hr (by norm_num))]
    exact hm _ (lt_trans hr16 (by norm_num))
  have e4 : mask32 (mask32 a <<< 24) = a <<< 24 := by
    rw [hm a (lt_trans ha (by norm_num))]
    exact hm _ ha24
  unfold MKARGB
  rw [e1, e2, e3, e4]
  have hlow : (b ||| g <<< 8) ||| r <<< 16 < 2 ^ 24 := by
    apply Nat.or_lt_two_pow _ hr16
    exact Nat.or_lt_two_pow (lt_trans hb (by norm_num)) (lt_trans hg8 (by norm_num))
  unfold alphaOf
  rw [shiftRight_or]
  have hlow0 : ((b ||| g <<< 8) ||| r <<< 16) >>> 24 = 0 := by
    rw [Nat.shiftRight_eq_div_pow]
    exact Nat.div_eq_of_lt hlow
  rw [hlow0, Nat.shiftLeft_shiftRight, Nat.zero_or]
  exact Nat.mod_eq_of_lt ha

/-! ### Color-string parsing (`ParseCssColor`)

The generic pattern scanner `str::Parse` and the case-insensitive comparison
`str::EqI` live in the repository's string utilities, which are not among the
provided sources; the concrete per-format parsers below are modelled from the
spec's description of §4.2 ("3-digit hex shorthand `#rgb`, 6-digit hex
`#rrggbb`, `rgb(r,g,b)` integer form, `rgba(r,g,b,a)` integer form,
`rgb(r%,g%,b%)` / `rgba(...,a%)` percentage form, and a fixed table of named
colors (case-insensitive exact match)") together with the format strings
visible in MuiCss.cpp.  Only the two hex formats carry the `%$`
end-of-string anchor in the source, so only those require the whole input to
be consumed. -/

/-- Value of one hexadecimal digit (`%x` accepts both cases). -/
def hexDigitVal (c : Char) : Option Nat :=
  if '0' ≤ c ∧ c ≤ '9' then some (c.toNat - 48)
  else if 'a' ≤ c ∧ c ≤ 'f' then some (c.toNat - 97 + 10)
  else if 'A' ≤ c ∧ c ≤ 'F' then some (c.toNat - 65 + 10)
  else none

/-- Modelled from the spec: `str::Parse` with format `"#%1x%1x%1x%$"` — a hash
followed by exactly three single hex digits and the end of the string.  (The
leading literal is tested first, as the scanner does, so a non-`#` input is
rejected immediately.) -/
def parseHashHex3 (cs : List Char) : Option (Nat × Nat × Nat) :=
  match cs with
  | c0 :: rest =>
      if c0 = '#' then
        match rest with
        | [c1, c2, c3] =>
            match hexDigitVal c1, hexDigitVal c2, hexDigitVal c3 with
            | some r, some g, some b => some (r, g, b)
            | _, _, _ => none
        | _ => none
      else none
  | [] => none

/-- Modelled from the spec: `str::Parse` with format `"#%2x%2x%2x%$"` — a hash
followed by exactly three two-digit hex numbers and the end of the string. -/
def parseHashHex6 (cs : List Char) : Option (Nat × Nat × Nat) :=
  match cs with
  | c0 :: rest =>
      if c0 = '#' then
        match rest with
        | [c1, c2, c3, c4, c5, c6] =>
            match hexDigitVal c1, hexDigitVal c2, hexDigitVal c3,
                  hexDigitVal c4, hexDigitVal c5, hexDigitVal c6 with
            | some h1, some h2, some h3, some h4, some h5, some h6 =>
                some (16 * h1 + h2, 16 * h3 + h4, 16 * h5 + h6)
            | _, _, _, _, _, _ => none
        | _ => none
      else none
  | [] => none

/-- Modelled from the spec: matching a literal run of characters, as
`str::Parse` does for plain characters in a format string. -/
def dropLit : List Char → List Char → Option (List Char)
  | [], cs => some cs
  | _ :: _, [] => none
  | l :: ls, c :: cs => if c = l then dropLit ls cs else none

def digitVal (c : Char) : Option Nat :=
  if '0' ≤ c ∧ c ≤ '9' then some (c.toNat - 48) else none

/-- Greedily take leading decimal digits. -/
def takeDigits : List Char → List Nat × List Char
  | [] => ([], [])
  | c :: cs =>
      match digitVal c with
      | some d =>
          let (ds, rest) := takeDigits cs
          (d :: ds, rest)
      | none => ([], c :: cs)

def digitsToNat (ds : List Nat) : Nat := ds.foldl (fun a d => a * 10 + d) 0

/-- Modelled from the spec: `str::Parse`'s `%d` — one or more decimal digits
read greedily. -/
def parseNum (cs : List Char) : Option (Nat × List Char) :=
  match takeDigits cs with
  | ([], _) => none
  | (ds, rest) => some (digitsToNat ds, rest)

/-- Modelled from the spec: `str::Parse`'s `%f` — decimal digits with an
optional fractional part, as an exact rational. -/
def parseFloatNum (cs : List Char) : Option (Rat × List Char) :=
  match parseNum cs with
  | none => none
  | some (n, rest) =>
      match rest with
      | '.' :: rest2 =>
          let (ds, rest3) := takeDigits rest2
          some ((n : Rat) + (digitsToNat ds : Rat) / ((10 : Rat) ^ ds.length), rest3)
      | _ => some ((n : Rat), rest)

/-- Modelled from the spec: format `"rgb(%d,%d,%d)"` (no end anchor, trailing
characters are allowed). -/
def parseRgbInt (cs : List Char) : Option (Nat × Nat × Nat) :=
  match dropLit (String.toList ("rgb(")) cs with
  | none => none
  | some cs1 =>
  match parseNum cs1 with
  | none => none
  | some (r, cs2) =>
  match dropLit [','] cs2 with
  | none => none
  | some cs3 =>
  match parseNum cs3 with
  | none => none
  | some (g, cs4) =>
  match dropLit [','] cs4 with
  | none => none
  | some cs5 =>
  match parseNum cs5 with
  | none => none
  | some (b, cs6) =>
  match dropLit [')'] cs6 with
  | none => none
  | some _ => some (r, g, b)

/-- Modelled from the spec: format `"rgba(%d,%d,%d,%d)"`. -/
def parseRgbaInt (cs : List Char) : Option (Nat × Nat × Nat × Nat) :=
  match dropLit (String.toList ("rgba(")) cs with
  | none => none
  | some cs1 =>
  match parseNum cs1 with
  | none => none
  | some (r, cs2) =>
  match dropLit [','] cs2 with
  | none => none
  | some cs3 =>
  match parseNum cs3 with
  | none => none
  | some (g, cs4) =>
  match dropLit [','] cs4 with
  | none => none
  | some cs5 =>
  match parseNum cs5 with
  | none => none
  | some (b, cs6) =>
  match dropLit [','] cs6 with
  | none => none
  | some cs7 =>
  match parseNum cs7 with
  | none => none
  | some (a, cs8) =>
  match dropLit [')'] cs8 with
  | none => none
  | some _ => some (r, g, b, a)

/-- Modelled from the spec: format `"rgb(%f%%,%f%%,%f%%)"`. -/
def parseRgbPct (cs : List Char) : Option (Rat × Rat × Rat) :=
  match dropLit (String.toList ("rgb(")) cs with
  | none => none
  | some cs1 =>
  match parseFloatNum cs1 with
  | none => none
  | some (r, cs2) =>
  match dropLit ['%', ','] cs2 with
  | none => none
  | some cs3 =>
  match parseFloatNum cs3 with
  | none => none
  | some (g, cs4) =>
  match dropLit ['%', ','] cs4 with
  | none => none
  | some cs5 =>
  match parseFloatNum cs5 with
  | none => none
  | some (b, cs6) =>
  match dropLit ['%', ')'] cs6 with
  | none => none
  | some _ => some (r, g, b)

/-- Modelled from the spec: format `"rgba(%f%%,%f%%,%f%%,%f%%)"`. -/
def parseRgbaPct (cs : List Char) : Option (Rat × Rat × Rat × Rat) :=
  match dropLit (String.toList ("rgba(")) cs with
  | none => none
  | some cs1 =>
  match parseFloatNum cs1 with
  | none => none
  | some (r, cs2) =>
  match dropLit ['%', ','] cs2 with
  | none => none
  | some cs3 =>
  match parseFloatNum cs3 with
  | none => none
  | some (g, cs4) =>
  match dropLit ['%', ','] cs4 with
  | none => none
  | some cs5 =>
  match parseFloatNum cs5 with
  | none => none
  | some (b, cs6) =>
  match dropLit ['%', ','] cs6 with
  | none => none
  | some cs7 =>
  match parseFloatNum cs7 with
  | none => none
  | some (a, cs8) =>
  match dropLit ['%', ')'] cs8 with
  | none => none
  | some _ => some (r, g, b, a)

/-- `gKnownColors` from MuiCss.cpp: the fixed table of named colors. -/
def gKnownColors : List (String × Nat) :=
  [("black", MKRGB 0 0 0),
   ("white", MKRGB 255 255 255),
   ("gray", MKRGB 128 128 128),
   ("red", MKRGB 255 0 0),
   ("green", MKRGB 0 128 0),
   ("blue", MKRGB 0 0 255),
   ("transparent", MKARGB 0 0 0 0),
   ("yellow", MKRGB 255 255 0)]

/-- Modelled from the spec: `str::EqI` — case-insensitive exact string match. -/
def strEqI (a b : String) : Bool :=
  a.toList.map Char.toLower == b.toList.map Char.toLower

/-- The named-color lookup loop at the end of `ParseCssColor`. -/
def lookupKnownColor (color : String) : Option Nat :=
  (gKnownColors.find? (fun kc => strEqI kc.1 color)).map (fun kc => kc.2)

/-- The C cast `(int)(x * 2.55f)` applied to a parsed (non-negative)
percentage component, over exact rationals: scale by `2.55 = 51/20` and
truncate.  For `x = num/den ≥ 0` this is `⌊x * 51/20⌋ = (num * 51) / (den * 20)`;
it is computed directly on the reduced numerator and denominator so that it
evaluates by kernel reduction. -/
def truncScale (x : Rat) : Nat := (x.num.toNat * 51) / (x.den * 20)

/-- `ParseCssColor` from MuiCss.cpp: tries, in order, the 3-digit hex
shorthand (each digit duplicated via `r |= r << 4`), 6-digit hex, the
`rgb`/`rgba` integer forms, the percentage forms (scaled by 2.55, truncated,
with default alpha `1.0`), the named-color table, and finally falls back to
transparent black. -/
def ParseCssColor (color : String) : Nat :=
  let cs := color.toList
  match parseHashHex3 cs with
  | some (r, g, b) =>
      MKRGB (Nat.lor r (Nat.shiftLeft r 4)) (Nat.lor g (Nat.shiftLeft g 4))
        (Nat.lor b (Nat.shiftLeft b 4))
  | none =>
  match parseHashHex6 cs with
  | some (r, g, b) => MKRGB r g b
  | none =>
  match parseRgbInt cs with
  | some (r, g, b) => MKRGB r g b
  | none =>
  match parseRgbaInt cs with
  | some (r, g, b, a) => MKARGB a r g b
  | none =>
  match parseRgbPct cs with
  | some (fr, fg, fb) =>
      MKARGB (truncScale 1) (truncScale fr) (truncScale fg) (truncScale fb)
  | none =>
  match parseRgbaPct cs with
  | some (fr, fg, fb, fa) =>
      MKARGB (truncScale fa) (truncScale fr) (truncScale fg) (truncScale fb)
  | none =>
  match lookupKnownColor color with
  | some c => c
  | none => MKARGB 0 0 0 0

/-! ### The property interning table (`gAllProps`, `FindExistingProp`, `Prop::Alloc*`)

The process-wide `Vec<Prop*> *gAllProps` is modelled as a `List CssProp`; the
vector is append-only, so the index of an element is a faithful model of the
object's address, and a `Prop*` handle is a `PropPtr` (index, stored value). -/

/-- A `Prop*` handle: the index of the interned object in `gAllProps` paired
with the stored value.  Pointer equality is equality of `PropPtr`. -/
structure PropPtr where
  id : Nat
  val : CssProp
deriving DecidableEq, Repr

/-- The scan loop of `FindExistingProp`, carrying the current index. -/
def findExistingAux : List CssProp → Nat → CssProp → Option PropPtr
  | [], _, _ => none
  | q :: rest, i, prop =>
      if CssProp.eq q prop then some ⟨i, q⟩ else findExistingAux rest (i + 1) prop

/-- `FindExistingProp` from MuiCss.cpp: linear scan over all previously
interned properties, returning the first one equal to the candidate. -/
def FindExistingProp (gAllProps : List CssProp) (prop : CssProp) : Option PropPtr :=
  findExistingAux gAllProps 0 prop

/-- The shared tail of every `Prop::Alloc*` constructor (the `ALLOC_BODY`
macro): return the existing equal instance if there is one, otherwise append
a freshly constructed instance to `gAllProps` and return it. -/
def internProp (gAllProps : List CssProp) (prop : CssProp) : PropPtr × List CssProp :=
  match FindExistingProp gAllProps prop with
  | some ptr => (ptr, gAllProps)
  | none => (⟨gAllProps.length, prop⟩, gAllProps ++ [prop])

/-- `Prop::AllocFontName`: interning of a font-name property.  (The
`str::Dup` of the name is a memory-management detail with no value-level
effect.) -/
def AllocFontName (name : String) (gAllProps : List CssProp) : PropPtr × List CssProp :=
  internProp gAllProps ⟨PropType.PropFontName, PropPayload.fontName name⟩

/-- `Prop::AllocFontSize`. -/
def AllocFontSize (size : Rat) (gAllProps : List CssProp) : PropPtr × List CssProp :=
  internProp gAllProps ⟨PropType.PropFontSize, PropPayload.fontSize size⟩

/-- `Prop::AllocFontWeight` (the GDI+ `FontStyle` flags value is a `Nat`). -/
def AllocFontWeight (style : Nat) (gAllProps : List CssProp) : PropPtr × List CssProp :=
  internProp gAllProps ⟨PropType.PropFontWeight, PropPayload.fontWeight style⟩

/-- `Prop::AllocWidth`: the caller supplies which border-width tag to use;
the source performs no check on the tag here. -/
def AllocWidth (type : PropType) (width : Rat) (gAllProps : List CssProp) :
    PropPtr × List CssProp :=
  internProp gAllProps ⟨type, PropPayload.width width⟩

/-- `Prop::AllocPadding`. -/
def AllocPadding (top right bottom left : Int) (gAllProps : List CssProp) :
    PropPtr × List CssProp :=
  internProp gAllProps ⟨PropType.PropPadding, PropPayload.padding ⟨top, right, bottom, left⟩⟩

/-- `Prop::AllocColorSolid(PropType, ARGB)`: asserts `CrashIf(!IsColorProp(type))`
(modelled as `none`) and interns a solid color property. -/
def AllocColorSolid (type : PropType) (color : Nat) (gAllProps : List CssProp) :
    Option (PropPtr × List CssProp) :=
  if IsColorProp type then
    some (internProp gAllProps ⟨type, PropPayload.color (ColorData.solid color)⟩)
  else none

/-- `Prop::AllocColorSolid(PropType, int a, int r, int g, int b)`: delegates to
the ARGB form via `MKARGB`. -/
def AllocColorSolidARGBInts (type : PropType) (a r g b : Nat) (gAllProps : List CssProp) :
    Option (PropPtr × List CssProp) :=
  AllocColorSolid type (MKARGB a r g b) gAllProps

/-- `Prop::AllocColorSolid(PropType, int r, int g, int b)`: delegates with
alpha `0xff`. -/
def AllocColorSolidRGBInts (type : PropType) (r g b : Nat) (gAllProps : List CssProp) :
    Option (PropPtr × List CssProp) :=
  AllocColorSolid type (MKARGB 0xff r g b) gAllProps

/-- `Prop::AllocColorSolid(PropType, const char*)`: parses the color string and
delegates to the ARGB form. -/
def AllocColorSolidStr (type : PropType) (color : String) (gAllProps : List CssProp) :
    Option (PropPtr × List CssProp) :=
  AllocColorSolid type (ParseCssColor color) gAllProps

/-- `Prop::AllocColorLinearGradient(PropType, mode, ARGB, ARGB)`: interns a
linear-gradient color property.  Note that, unlike `AllocColorSolid`, the
source performs no `IsColorProp` assertion here. -/
def AllocColorLinearGradient (type : PropType) (mode : LinearGradientMode)
    (startColor endColor : Nat) (gAllProps : List CssProp) : PropPtr × List CssProp :=
  internProp gAllProps
    ⟨type, PropPayload.color (ColorData.gradientLinear mode startColor endColor)⟩

/-- `Prop::AllocColorLinearGradient(PropType, mode, const char*, const char*)`:
parses both colors and delegates to the ARGB form. -/
def AllocColorLinearGradientStr (type : PropType) (mode : LinearGradientMode)
    (startColor endColor : String) (gAllProps : List CssProp) : PropPtr × List CssProp :=
  AllocColorLinearGradient type mode (ParseCssColor startColor) (ParseCssColor endColor)
    gAllProps

/-- One property-construction call, covering every `Prop::Alloc*` entry point
of MuiCss.cpp. -/
inductive AllocCall where
  | fontName (name : String)
  | fontSize (size : Rat)
  | fontWeight (style : Nat)
  | width (type : PropType) (w : Rat)
  | padding (top right bottom left : Int)
  | colorSolid (type : PropType) (color : Nat)
  | colorSolidARGBInts (type : PropType) (a r g b : Nat)
  | colorSolidRGBInts (type : PropType) (r g b : Nat)
  | colorSolidStr (type : PropType) (color : String)
  | colorGradient (type : PropType) (mode : LinearGradientMode) (c1 c2 : Nat)
  | colorGradientStr (type : PropType) (mode : LinearGradientMode) (s1 s2 : String)

/-- The candidate value (tag + payload) a construction call tries to intern. -/
def candidate : AllocCall → CssProp
  | AllocCall.fontName n => ⟨PropType.PropFontName, PropPayload.fontName n⟩
  | AllocCall.fontSize s => ⟨PropType.PropFontSize, PropPayload.fontSize s⟩
  | AllocCall.fontWeight st => ⟨PropType.PropFontWeight, PropPayload.fontWeight st⟩
  | AllocCall.width t w => ⟨t, PropPayload.width w⟩
  | AllocCall.padding a b c d => ⟨PropType.PropPadding, PropPayload.padding ⟨a, b, c, d⟩⟩
  | AllocCall.colorSolid t c => ⟨t, PropPayload.color (ColorData.solid c)⟩
  | AllocCall.colorSolidARGBInts t a r g b =>
      ⟨t, PropPayload.color (ColorData.solid (MKARGB a r g b))⟩
  | AllocCall.colorSolidRGBInts t r g b =>
      ⟨t, PropPayload.color (ColorData.solid (MKARGB 0xff r g b))⟩
  | AllocCall.colorSolidStr t s => ⟨t, PropPayload.color (ColorData.solid (ParseCssColor s))⟩
  | AllocCall.colorGradient t m c1 c2 =>
      ⟨t, PropPayload.color (ColorData.gradientLinear m c1 c2)⟩
  | AllocCall.colorGradientStr t m s1 s2 =>
      ⟨t, PropPayload.color (ColorData.gradientLinear m (ParseCssColor s1) (ParseCssColor s2))⟩

/-- Run one construction call against the interning table; `none` models the
fatal `CrashIf(!IsColorProp(type))` assertion of the solid-color forms. -/
def runAlloc : AllocCall → List CssProp → Option (PropPtr × List CssProp)
  | AllocCall.fontName n, s => some (AllocFontName n s)
  | AllocCall.fontSize sz, s => some (AllocFontSize sz s)
  | AllocCall.fontWeight st, s => some (AllocFontWeight st s)
  | AllocCall.width t w, s => some (AllocWidth t w s)
  | AllocCall.padding a b c d, s => some (AllocPadding a b c d s)
  | AllocCall.colorSolid t c, s => AllocColorSolid t c s
  | AllocCall.colorSolidARGBInts t a r g b, s => AllocColorSolidARGBInts t a r g b s
  | AllocCall.colorSolidRGBInts t r g b, s => AllocColorSolidRGBInts t r g b s
  | AllocCall.colorSolidStr t str, s => AllocColorSolidStr t str s
  | AllocCall.colorGradient t m c1 c2, s => some (AllocColorLinearGradient t m c1 c2 s)
  | AllocCall.colorGradientStr t m s1 s2, s => some (AllocColorLinearGradientStr t m s1 s2 s)

theorem findExistingAux_congr {p q : CssProp} (h : CssProp.eq p q = true) :
    ∀ (l : List CssProp) (i : Nat), findExistingAux l i p = findExistingAux l i q := by
  intro l
  induction l with
  | nil => intro i; rfl
  | cons hd tl ih =>
      intro i
      have hiff : CssProp.eq hd p = CssProp.eq hd q := by
        cases hp : CssProp.eq hd p with
        | true => rw [CssProp.eq_trans hp h]
        | false =>
            cases hq : CssProp.eq hd q with
            | true =>
                exact absurd (CssProp.eq_trans hq (CssProp.eq_symm h)) (by simp [hp])
            | false => rfl
      simp only [findExistingAux, hiff, ih]

theorem findExistingAux_append_none (l1 l2 : List CssProp) (p : CssProp) :
    ∀ i, findExistingAux l1 i p = none →
      findExistingAux (l1 ++ l2) i p = findExistingAux l2 (i + l1.length) p := by
  induction l1 with
  | nil => intro i _; simp
  | cons hd tl ih =>
      intro i h
      rw [List.cons_append]
      simp only [findExistingAux] at h ⊢
      cases heq : CssProp.eq hd p with
      | true => simp [heq] at h
      | false =>
          simp only [heq, Bool.false_eq_true, if_false] at h ⊢
          rw [ih _ h, List.length_cons]
          congr 1
          omega

/-- Interning is stable: re-interning a value equal (per `Prop::Eq`) to one
just interned returns the same handle and leaves the table unchanged. -/
theorem internProp_stable {p q : CssProp} {s s1 : List CssProp} {ptr : PropPtr}
    (heq : CssProp.eq p q = true) (h : internProp s p = (ptr, s1)) :
    internProp s1 q = (ptr, s1) := by
  unfold internProp FindExistingProp at h ⊢
  cases hf : findExistingAux s 0 p with
  | some ptr0 =>
      rw [hf] at h
      injection h with h1 h2
      subst h1
      subst h2
      rw [← findExistingAux_congr heq, hf]
  | none =>
      rw [hf] at h
      injection h with h1 h2
      subst h1
      subst h2
      have hq : findExistingAux s 0 q = none := by
        rw [← findExistingAux_congr heq, hf]
      rw [findExistingAux_append_none s [p] q 0 hq]
      simp [findExistingAux, heq]

theorem runAlloc_eq_internProp {c : AllocCall} {s : List CssProp} {r : PropPtr × List CssProp}
    (h : runAlloc c s = some r) : internProp s (candidate c) = r := by
  cases c with
  | fontName n => exact Option.some.inj h
  | fontSize sz => exact Option.some.inj h
  | fontWeight st => exact Option.some.inj h
  | width t w => exact Option.some.inj h
  | padding a b c d => exact Option.some.inj h
  | colorGradient t m c1 c2 => exact Option.some.inj h
  | colorGradientStr t m s1 s2 => exact Option.some.inj h
  | colorSolid t c =>
      have h0 : AllocColorSolid t c s = some r := h
      rw [AllocColorSolid] at h0
      split at h0
      · exact Option.some.inj h0
      · exact absurd h0 (by simp)
  | colorSolidARGBInts t a r' g b =>
      have h0 : AllocColorSolid t (MKARGB a r' g b) s = some r := h
      rw [AllocColorSolid] at h0
      split at h0
      · exact Option.some.inj h0
      · exact absurd h0 (by simp)
  | colorSolidRGBInts t r' g b =>
      have h0 : AllocColorSolid t (MKARGB 0xff r' g b) s = some r := h
      rw [AllocColorSolid] at h0
      split at h0
      · exact Option.some.inj h0
      · exact absurd h0 (by simp)
  | colorSolidStr t str =>
      have h0 : AllocColorSolid t (ParseCssColor str) s = some r := h
      rw [AllocColorSolid] at h0
      split at h0
      · exact Option.some.inj h0
      · exact absurd h0 (by simp)

theorem payloadMatchesTag_color (t : PropType) (c : ColorData) :
    PayloadMatchesTag t (PropPayload.color c) = IsColorProp t := by
  cases t <;> simp [PayloadMatchesTag, getFontName, getFontSize, getFontWeight, getPadding,
    getColor, getWidth, IsColorProp, IsWidthProp]

theorem allocColorSolid_of_isColor {t : PropType} (h : IsColorProp t = true) (c : Nat)
    (s : List CssProp) :
    AllocColorSolid t c s =
      some (internProp s ⟨t, PropPayload.color (ColorData.solid c)⟩) := by
  simp [AllocColorSolid, h]

theorem runAlloc_some_of_matches {c : AllocCall}
    (h : PayloadMatchesTag (candidate c).type (candidate c).payload = true)
    (s : List CssProp) : runAlloc c s = some (internProp s (candidate c)) := by
  cases c with
  | fontName n => rfl
  | fontSize sz => rfl
  | fontWeight st => rfl
  | width t w => rfl
  | padding a b c d => rfl
  | colorGradient t m c1 c2 => rfl
  | colorGradientStr t m s1 s2 => rfl
  | colorSolid t c =>
      have h0 : PayloadMatchesTag t (PropPayload.color (ColorData.solid c)) = true := h
      exact allocColorSolid_of_isColor (payloadMatchesTag_color t _ ▸ h0) c s
  | colorSolidARGBInts t a r g b =>
      have h0 : PayloadMatchesTag t (PropPayload.color (ColorData.solid (MKARGB a r g b))) =
          true := h
      exact allocColorSolid_of_isColor (payloadMatchesTag_color t _ ▸ h0) (MKARGB a r g b) s
  | colorSolidRGBInts t r g b =>
      have h0 : PayloadMatchesTag t
          (PropPayload.color (ColorData.solid (MKARGB 0xff r g b))) = true := h
      exact allocColorSolid_of_isColor (payloadMatchesTag_color t _ ▸ h0) (MKARGB 0xff r g b) s
  | colorSolidStr t str =>
      have h0 : PayloadMatchesTag t
          (PropPayload.color (ColorData.solid (ParseCssColor str))) = true := h
      exact allocColorSolid_of_isColor (payloadMatchesTag_color t _ ▸ h0) (ParseCssColor str) s

/-! ### Styles and the property resolver

A `Style` holds an ordered sequence of `Prop*` (here `PropPtr`) and a nullable
`inheritsFrom` parent pointer.  To keep recursion over the (acyclic) parent
chain structural, the nullable parent is inlined into two constructors:
`root props` is a style with `inheritsFrom == NULL`, and `child props parent`
one with `inheritsFrom == &parent`. -/

inductive Style where
  | root (props : List PropPtr)
  | child (props : List PropPtr) (parent : Style)

/-- The style's own property sequence (the `props` vector). -/
def Style.props : Style → List PropPtr
  | Style.root ps => ps
  | Style.child ps _ => ps

/-- The style's `inheritsFrom` pointer. -/
def Style.inheritsFrom : Style → Option Style
  | Style.root _ => none
  | Style.child _ parent => some parent

/-- The scan-and-replace loop of `Style::Set`: replace the first entry of the
same tag in place, else append. -/
def setInProps : List PropPtr → PropPtr → List PropPtr
  | [], prop => [prop]
  | p :: rest, prop =>
      if p.val.type = prop.val.type then prop :: rest else p :: setInProps rest prop

/-- `Style::Set` from MuiCss.cpp. -/
def Style.Set : Style → PropPtr → Style
  | Style.root ps, prop => Style.root (setInProps ps prop)
  | Style.child ps parent, prop => Style.child (setInProps ps prop) parent

/-- One slot of the `PropToFind` array: the wanted tag and the resolved
property (a null pointer while unresolved). -/
structure PropToFind where
  type : PropType
  prop : Option PropPtr
deriving DecidableEq, Repr

/-- `FoundAllProps` from MuiCss.cpp. -/
def FoundAllProps (props : List PropToFind) : Bool :=
  props.all (fun ptf => ptf.prop.isSome)

/-- `SetPropIfFound` from MuiCss.cpp: walk the wanted slots; at the first slot
of the same tag, fill it if still unset (returning `true`), else stop with
`false`. -/
def SetPropIfFound (prop : PropPtr) : List PropToFind → List PropToFind × Bool
  | [] => ([], false)
  | ptf :: rest =>
      if ptf.type ≠ prop.val.type then
        let (rest', didSet) := SetPropIfFound prop rest
        (ptf :: rest', didSet)
      else if ptf.prop = none then
        ({ ptf with prop := some prop } :: rest, true)
      else
        (ptf :: rest, false)

/-- The inner loop of `FindProps` over one style's own property list,
returning the updated slots and whether the early `return` (all wanted tags
resolved) was taken. -/
def scanStyleProps : List PropPtr → List PropToFind → List PropToFind × Bool
  | [], propsToFind => (propsToFind, false)
  | p :: rest, propsToFind =>
      let (propsToFind', didSet) := SetPropIfFound p propsToFind
      if didSet && FoundAllProps propsToFind' then (propsToFind', true)
      else scanStyleProps rest propsToFind'

/-- The `while (curr)` chain walk of the single-chain `FindProps`, starting at
a non-null style. -/
def FindPropsStyle : Style → List PropToFind → List PropToFind
  | Style.root props, propsToFind => (scanStyleProps props propsToFind).1
  | Style.child props parent, propsToFind =>
      let (propsToFind', stop) := scanStyleProps props propsToFind
      if stop then propsToFind' else FindPropsStyle parent propsToFind'

/-- The single-chain `FindProps(Style*, PropToFind*, size_t)` of MuiCss.cpp;
a null style pointer makes the `while` loop run zero iterations. -/
def FindProps : Option Style → List PropToFind → List PropToFind
  | none, propsToFind => propsToFind
  | some s, propsToFind => FindPropsStyle s propsToFind

/-- The dual-chain `FindProps(Style*, Style*, PropToFind*, size_t)` of
MuiCss.cpp: walk the first chain, then the second. -/
def FindPropsTwo (first second : Option Style) (propsToFind : List PropToFind) :
    List PropToFind :=
  FindProps second (FindProps first propsToFind)

/-- `FindProp` from MuiCss.cpp: the single-tag convenience form over a
one-element `PropToFind` array. -/
def FindProp (first second : Option Style) (type : PropType) : Option PropPtr :=
  match FindPropsTwo first second [⟨type, none⟩] with
  | [ptf] => ptf.prop
  | _ => none

/-- First property of a given tag in a style's own property list. -/
def firstOfTag (T : PropType) : List PropPtr → Option PropPtr
  | [] => none
  | p :: rest => if p.val.type = T then some p else firstOfTag T rest

/-- First property of a given tag found walking a style chain from the given
style up through its parents (the resolver's visit order). -/
def chainFirstOfTag : Style → PropType → Option PropPtr
  | Style.root props, T => firstOfTag T props
  | Style.child props parent, T =>
      match firstOfTag T props with
      | some p => some p
      | none => chainFirstOfTag parent T

/-- `chainFirstOfTag` lifted to a nullable style pointer. -/
def ochainFirstOfTag : Option Style → PropType → Option PropPtr
  | none, _ => none
  | some s, T => chainFirstOfTag s T

/-! ### The font cache (`gCachedFonts`, `CachedFontFromProps`) -/

/-- `FontCacheEntry` from MuiCss.cpp: three `Prop*` keys plus the owned
`Font*` resource (a `Nat` resource id; `none` models a null font pointer). -/
structure FontCacheEntry where
  fontName : PropPtr
  fontSize : PropPtr
  fontWeight : PropPtr
  font : Option Nat
deriving DecidableEq, Repr

/-- `FontCacheEntry::Eq` from MuiCss.cpp: pointer identity of the three keys
(valid because `Prop` objects are interned). -/
def FontCacheEntry.Eq (e other : FontCacheEntry) : Bool :=
  (e.fontName == other.fontName) && (e.fontSize == other.fontSize) &&
    (e.fontWeight == other.fontWeight)

/-- The process-wide font-cache state: the `gCachedFonts` vector plus a
counter of `Font` resources constructed so far (fresh resource ids). -/
structure FontCacheState where
  gCachedFonts : List FontCacheEntry
  fontsCreated : Nat
deriving DecidableEq, Repr

/-- The scan loop of `CachedFontFromProps` over `gCachedFonts`: first entry
whose keys are pointer-identical to the probe. -/
def findCachedFont (probe : FontCacheEntry) : List FontCacheEntry → Option FontCacheEntry
  | [] => none
  | e :: rest => if FontCacheEntry.Eq e probe then some e else findCachedFont probe rest

/-- The font-related resolution at the head of `CachedFontFromProps`:
FontName, FontSize and FontWeight across the two style chains. -/
def resolveFontProps (first second : Option Style) :
    Option (PropPtr × PropPtr × PropPtr) :=
  match FindPropsTwo first second
      [⟨PropType.PropFontName, none⟩, ⟨PropType.PropFontSize, none⟩,
        ⟨PropType.PropFontWeight, none⟩] with
  | [a, b, c] =>
      match a.prop, b.prop, c.prop with
      | some n, some sz, some w => some (n, sz, w)
      | _, _, _ => none
  | _ => none

/-- `CachedFontFromProps` from MuiCss.cpp: resolve the three font properties
(`CrashIf` — modelled as `none` — when any is missing), return the cached
font on a pointer-identical key match (`CrashIf` when that entry's font is
null), else construct a fresh font resource, append it to the cache, and
return it. -/
def CachedFontFromProps (first second : Option Style) (st : FontCacheState) :
    Option (Nat × FontCacheState) :=
  match resolveFontProps first second with
  | none => none
  | some (n, sz, w) =>
      let probe : FontCacheEntry := ⟨n, sz, w, none⟩
      match findCachedFont probe st.gCachedFonts with
      | some e =>
          match e.font with
          | some f => some (f, st)
          | none => none
      | none =>
          some (st.fontsCreated,
            ⟨st.gCachedFonts ++ [⟨n, sz, w, some st.fontsCreated⟩], st.fontsCreated + 1⟩)

/-! ### Resolver lemmas -/

theorem setPropIfFound_miss {q : PropPtr} {T : PropType} (h : ¬T = q.val.type)
    (o : Option PropPtr) : SetPropIfFound q [⟨T, o⟩] = ([⟨T, o⟩], false) := by
  simp [SetPropIfFound, h]

theorem setPropIfFound_hit {q : PropPtr} {T : PropType} (h : T = q.val.type) :
    SetPropIfFound q [⟨T, none⟩] = ([⟨T, some q⟩], true) := by
  simp [SetPropIfFound, h]

theorem scanStyleProps_single_found {props : List PropPtr} {T : PropType} {pc : PropPtr}
    (h : firstOfTag T props = some pc) :
    scanStyleProps props [⟨T, none⟩] = ([⟨T, some pc⟩], true) := by
  induction props with
  | nil => simp [firstOfTag] at h
  | cons q rest ih =>
      by_cases hq : q.val.type = T
      · have hpc : pc = q := by
          have := h
          simp [firstOfTag, hq] at this
          exact this.symm
        subst hpc
        simp [scanStyleProps, setPropIfFound_hit hq.symm, FoundAllProps]
      · have h' : firstOfTag T rest = some pc := by
          simpa [firstOfTag, hq] using h
        simp [scanStyleProps, setPropIfFound_miss (fun hT => hq hT.symm), ih h']

theorem scanStyleProps_single_absent {props : List PropPtr} {T : PropType}
    (h : firstOfTag T props = none) (o : Option PropPtr) :
    scanStyleProps props [⟨T, o⟩] = ([⟨T, o⟩], false) := by
  induction props with
  | nil => rfl
  | cons q rest ih =>
      have hq : ¬q.val.type = T := by
        intro hT
        simp [firstOfTag, hT] at h
      have h' : firstOfTag T rest = none := by
        simpa [firstOfTag, hq] using h
      simp [scanStyleProps, setPropIfFound_miss (fun hT => hq hT.symm), ih h']

theorem findPropsStyle_single_absent {s : Style} {T : PropType}
    (h : chainFirstOfTag s T = none) (o : Option PropPtr) :
    FindPropsStyle s [⟨T, o⟩] = [⟨T, o⟩] := by
  induction s with
  | root props =>
      simp [FindPropsStyle, scanStyleProps_single_absent h o]
  | child props parent ih =>
      have hown : firstOfTag T props = none := by
        cases hf : firstOfTag T props with
        | none => rfl
        | some p => simp [chainFirstOfTag, hf] at h
      have hpar : chainFirstOfTag parent T = none := by
        simpa [chainFirstOfTag, hown] using h
      simp [FindPropsStyle, scanStyleProps_single_absent hown o, ih hpar]

theorem findPropsStyle_single_found {s : Style} {T : PropType} {p : PropPtr}
    (h : chainFirstOfTag s T = some p) :
    FindPropsStyle s [⟨T, none⟩] = [⟨T, some p⟩] := by
  induction s with
  | root props =>
      have : firstOfTag T props = some p := h
      simp [FindPropsStyle, scanStyleProps_single_found this]
  | child props parent ih =>
      cases hf : firstOfTag T props with
      | some q =>
          have hq : q = p := by simpa [chainFirstOfTag, hf] using h
          subst hq
          simp [FindPropsStyle, scanStyleProps_single_found hf]
      | none =>
          have hpar : chainFirstOfTag parent T = some p := by
            simpa [chainFirstOfTag, hf] using h
          simp [FindPropsStyle, scanStyleProps_single_absent hf none, ih hpar]

/-- C2: a property of tag `T` supplied in a child style's own list shadows any
property of the same tag supplied by the parent it inherits from — resolution
starting at the child returns the child's property, not the parent's. -/
theorem findProp_child_precedence (cprops : List PropPtr) (parent : Style)
    (T : PropType) (pc pp : PropPtr)
    (hc : firstOfTag T cprops = some pc)
    (_hp : pp ∈ parent.props) (_hpT : pp.val.type = T)
    (hne : pc.val ≠ pp.val) :
    FindProp (some (Style.child cprops parent)) none T = some pc ∧
      FindProp (some (Style.child cprops parent)) none T ≠ some pp := by
  have hchain : chainFirstOfTag (Style.child cprops parent) T = some pc := by
    simp [chainFirstOfTag, hc]
  have hres : FindPropsStyle (Style.child cprops parent) [⟨T, none⟩] = [⟨T, some pc⟩] :=
    findPropsStyle_single_found hchain
  have h1 : FindProp (some (Style.child cprops parent)) none T = some pc := by
    simp [FindProp, FindPropsTwo, FindProps, hres]
  refine ⟨h1, ?_⟩
  rw [h1]
  intro hcontr
  exact hne (by rw [Option.some.inj hcontr])

/-- C3: a wanted tag absent throughout the first chain and present in the
second chain resolves to the property found in the second chain; resolution
reads the chains without modifying them (the model's resolver is a pure
function of the two chains). -/
theorem findProp_second_chain_fallback (first second : Option Style) (T : PropType)
    (p : PropPtr) (h1 : ochainFirstOfTag first T = none)
    (h2 : ochainFirstOfTag second T = some p) :
    FindProp first second T = some p := by
  have e1 : FindProps first [⟨T, none⟩] = [⟨T, none⟩] := by
    cases first with
    | none => rfl
    | some s => exact findPropsStyle_single_absent h1 none
  have e2 : FindProps second [⟨T, none⟩] = [⟨T, some p⟩] := by
    cases second with
    | none => simp [ochainFirstOfTag] at h2
    | some s => exact findPropsStyle_single_found h2
  simp [FindProp, FindPropsTwo, e1, e2]

/-- C10: both resolver entry points accept null style pointers — a null chain
contributes zero loop iterations, with both chains null `FindProps` leaves
every wanted slot exactly as passed in (unresolved slots stay null) and
`FindProp` returns null, with no fatal check anywhere on this path. -/
theorem findProps_null_chains (propsToFind : List PropToFind) (T : PropType) (s : Style) :
    FindPropsTwo none none propsToFind = propsToFind ∧
      FindProp none none T = none ∧
      FindPropsTwo (some s) none propsToFind = FindPropsStyle s propsToFind ∧
      FindPropsTwo none (some s) propsToFind = FindPropsStyle s propsToFind :=
  ⟨rfl, rfl, rfl, rfl⟩

/-! ### Style override (C5) -/

/-- Number of entries of a tag in a style's own property list. -/
def countOfTag (T : PropType) (l : List PropPtr) : Nat :=
  l.countP (fun p => p.val.type == T)

/-- The entries of a tag in a style's own property list, in order. -/
def propsOfTag (T : PropType) (l : List PropPtr) : List PropPtr :=
  l.filter (fun p => p.val.type == T)

theorem style_set_props (s : Style) (P : PropPtr) : (s.Set P).props = setInProps s.props P := by
  cases s <;> rfl

theorem style_set_inheritsFrom (s : Style) (P : PropPtr) :
    (s.Set P).inheritsFrom = s.inheritsFrom := by
  cases s <;> rfl

theorem propsOfTag_setInProps {l : List PropPtr} {P : PropPtr} {T : PropType}
    (hT : P.val.type = T) (hc : countOfTag T l ≤ 1) :
    propsOfTag T (setInProps l P) = [P] := by
  induction l with
  | nil => simp [setInProps, propsOfTag, hT]
  | cons q rest ih =>
      by_cases hq : q.val.type = P.val.type
      · have hrest : countOfTag T rest = 0 := by
          have : countOfTag T (q :: rest) = countOfTag T rest + 1 := by
            simp [countOfTag, List.countP_cons, hq, hT]
          omega
        have hrest' : rest.countP (fun p => p.val.type == T) = 0 := hrest
        simp only [setInProps, hq, if_true, propsOfTag, List.filter_cons]
        simp only [hT, beq_self_eq_true, if_true]
        simp [List.filter_eq_nil_iff]
        intro a ha
        have := (List.countP_eq_zero).1 hrest' a ha
        simpa using this
      · have hqT : ¬q.val.type = T := by rw [← hT]; exact hq
        have hc' : countOfTag T rest ≤ 1 := by
          have : countOfTag T (q :: rest) = countOfTag T rest := by
            simp [countOfTag, List.countP_cons, hqT]
          omega
        have := ih hc'
        simp only [setInProps, hq, if_false, propsOfTag, List.filter_cons] at this ⊢
        simp [hqT, this]

theorem map_id_of_no_tag {l : List PropPtr} {T : PropType} {Q : PropPtr}
    (h : countOfTag T l = 0) :
    l.map (fun q => if q.val.type = T then Q else q) = l := by
  induction l with
  | nil => rfl
  | cons q rest ih =>
      have hq : ¬q.val.type = T := by
        intro hT
        simp [countOfTag, List.countP_cons, hT] at h
      have hrest : countOfTag T rest = 0 := by
        simp only [countOfTag, List.countP_cons] at h ⊢
        omega
      simp [hq, ih hrest]

theorem setInProps_twice {l : List PropPtr} {P Q : PropPtr}
    (hPQ : P.val.type = Q.val.type) (hc : countOfTag P.val.type l ≤ 1) :
    setInProps (setInProps l P) Q =
      (setInProps l P).map (fun q => if q.val.type = P.val.type then Q else q) := by
  induction l with
  | nil => simp [setInProps, hPQ.symm]
  | cons q rest ih =>
      by_cases hq : q.val.type = P.val.type
      · have hrest : countOfTag P.val.type rest = 0 := by
          have : countOfTag P.val.type (q :: rest) = countOfTag P.val.type rest + 1 := by
            simp [countOfTag, List.countP_cons, hq]
          omega
        simp [setInProps, hq, hPQ.symm, map_id_of_no_tag hrest]
      · have hc' : countOfTag P.val.type rest ≤ 1 := by
          have : countOfTag P.val.type (q :: rest) = countOfTag P.val.type rest := by
            simp [countOfTag, List.countP_cons, hq]
          omega
        have hqQ : ¬q.val.type = Q.val.type := by rw [← hPQ]; exact hq
        simp [setInProps, hq, hqQ, ih hc']

/-- C5: setting a property `P` and then a property `Q` of the same tag leaves
the style with exactly one property of that tag — `Q` — replaced in place at
the existing entry's position (same length, every other entry untouched), and
the inheritance parent unchanged.  The hypothesis `countOfTag … ≤ 1` is the
documented invariant that a style's own list holds at most one property per
tag (maintained by `Style::Set` itself). -/
theorem style_set_override (s : Style) (P Q : PropPtr)
    (hPQ : P.val.type = Q.val.type)
    (hc : countOfTag P.val.type s.props ≤ 1) :
    ((s.Set P).Set Q).props =
        (s.Set P).props.map (fun q => if q.val.type = P.val.type then Q else q) ∧
      propsOfTag P.val.type ((s.Set P).Set Q).props = [Q] ∧
      ((s.Set P).Set Q).props.length = (s.Set P).props.length ∧
      ((s.Set P).Set Q).inheritsFrom = s.inheritsFrom := by
  have e1 : (s.Set P).props = setInProps s.props P := style_set_props s P
  have e2 : ((s.Set P).Set Q).props = setInProps (setInProps s.props P) Q := by
    rw [style_set_props, e1]
  have hmap : setInProps (setInProps s.props P) Q =
      (setInProps s.props P).map (fun q => if q.val.type = P.val.type then Q else q) :=
    setInProps_twice hPQ hc
  refine ⟨by rw [e2, e1, hmap], ?_, ?_, ?_⟩
  · rw [e2]
    have hone : countOfTag P.val.type (setInProps s.props P) ≤ 1 := by
      have : propsOfTag P.val.type (setInProps s.props P) = [P] :=
        propsOfTag_setInProps rfl hc
      have hlen : countOfTag P.val.type (setInProps s.props P) =
          (propsOfTag P.val.type (setInProps s.props P)).length := by
        simp [countOfTag, propsOfTag, List.countP_eq_length_filter]
      rw [hlen, this]
      simp
    exact propsOfTag_setInProps hPQ.symm hone
  · rw [e2, e1, hmap]
    exact List.length_map _ _
  · rw [style_set_inheritsFrom, style_set_inheritsFrom]

/-! ### Font-cache lemmas (C4) -/

theorem findCachedFont_append_none {probe : FontCacheEntry} {l1 : List FontCacheEntry}
    (h : findCachedFont probe l1 = none) (l2 : List FontCacheEntry) :
    findCachedFont probe (l1 ++ l2) = findCachedFont probe l2 := by
  induction l1 with
  | nil => rfl
  | cons e rest ih =>
      simp only [List.cons_append, findCachedFont] at h ⊢
      cases he : FontCacheEntry.Eq e probe with
      | true => simp [he] at h
      | false =>
          simp only [he, Bool.false_eq_true, if_false] at h ⊢
          exact ih h

theorem fontCacheEntry_eq_same_keys (n sz w : PropPtr) (f1 f2 : Option Nat) :
    FontCacheEntry.Eq ⟨n, sz, w, f1⟩ ⟨n, sz, w, f2⟩ = true := by
  simp [FontCacheEntry.Eq]

/-- C4: two `CachedFontFromProps` calls whose style chains resolve the font
name, size and weight to the same three interned property identities return
the same font handle, and the second call leaves the cache state untouched
(no new font resource is constructed). -/
theorem cachedFont_identity_reuse (first1 second1 first2 second2 : Option Style)
    (st st1 : FontCacheState) (n sz w : PropPtr) (font1 : Nat)
    (hr1 : resolveFontProps first1 second1 = some (n, sz, w))
    (hr2 : resolveFontProps first2 second2 = some (n, sz, w))
    (hcall : CachedFontFromProps first1 second1 st = some (font1, st1)) :
    CachedFontFromProps first2 second2 st1 = some (font1, st1) := by
  unfold CachedFontFromProps at hcall ⊢
  rw [hr1] at hcall
  rw [hr2]
  dsimp only at hcall ⊢
  cases hf : findCachedFont ⟨n, sz, w, none⟩ st.gCachedFonts with
  | some e =>
      rw [hf] at hcall
      dsimp only at hcall
      cases he : e.font with
      | some f =>
          rw [he] at hcall
          dsimp only at hcall
          simp only [Option.some.injEq, Prod.mk.injEq] at hcall
          obtain ⟨hA, hB⟩ := hcall
          subst hA
          subst hB
          rw [hf]
          dsimp only
          rw [he]
      | none =>
          rw [he] at hcall
          exact absurd hcall (by simp)
  | none =>
      rw [hf] at hcall
      dsimp only at hcall
      simp only [Option.some.injEq, Prod.mk.injEq] at hcall
      obtain ⟨hA, hB⟩ := hcall
      subst hA
      subst hB
      rw [findCachedFont_append_none hf]
      simp [findCachedFont, fontCacheEntry_eq_same_keys]

/-! ### Interning uniqueness (C1) -/

/-- C1: for any two property-construction calls (over all the
`Prop::Alloc*` entry points) whose candidate values have equal tag and equal
payload under the tag's equality rule (`Prop::Eq`), the second call returns
the identical handle that the first call returned and leaves the interning
table unchanged — in particular its instance count does not increase. -/
theorem alloc_interning_unique (c1 c2 : AllocCall) (s s1 : List CssProp) (ptr1 : PropPtr)
    (heq : CssProp.eq (candidate c1) (candidate c2) = true)
    (h1 : runAlloc c1 s = some (ptr1, s1)) :
    runAlloc c2 s1 = some (ptr1, s1) := by
  have hint : internProp s (candidate c1) = (ptr1, s1) := runAlloc_eq_internProp h1
  have hstable : internProp s1 (candidate c2) = (ptr1, s1) := internProp_stable heq hint
  have hm : PayloadMatchesTag (candidate c2).type (candidate c2).payload = true := by
    obtain ⟨ht, hm1, hp⟩ := (CssProp.eq_iff _ _).1 heq
    rw [← ht, ← hp]
    exact hm1
  rw [runAlloc_some_of_matches hm s1, hstable]

/-! ### The non-color-tag assertion of the color constructors (C6) -/

/-- C6 (amended): requesting a solid-color allocation — through any of the
`AllocColorSolid` forms (ARGB, a/r/g/b components, r/g/b components, parsed
string) — for a non-color property tag hits the fatal
`CrashIf(!IsColorProp(type))` assertion; the `AllocColorLinearGradient`
forms perform no such tag check (see the counterexample). -/
theorem allocColorSolid_noncolor_asserts (t : PropType) (h : IsColorProp t = false)
    (s : List CssProp) (c a r g b : Nat) (str : String) :
    AllocColorSolid t c s = none ∧
      AllocColorSolidARGBInts t a r g b s = none ∧
      AllocColorSolidRGBInts t r g b s = none ∧
      AllocColorSolidStr t str s = none := by
  refine ⟨?_, ?_, ?_, ?_⟩ <;>
    simp [AllocColorSolid, AllocColorSolidARGBInts, AllocColorSolidRGBInts,
      AllocColorSolidStr, h]

/-- C6 counterexample: building a linear-gradient color property with the
non-color tag `PropPadding` does **not** trigger a fatal assertion — the call
completes normally and returns a handle (the source's
`Prop::AllocColorLinearGradient` has no `IsColorProp` check). -/
theorem allocColorGradient_noncolor_no_assert :
    IsColorProp PropType.PropPadding = false ∧
      (runAlloc
          (AllocCall.colorGradient PropType.PropPadding LinearGradientMode.vertical 0 0)
          []).isSome = true := by
  decide

/-! ### Color-parser claims (C7, C8, C9) -/

/-- C7: the color parser maps the spec's example inputs as stated — `"#fff"`
to opaque white `0xFFFFFFFF`, `"#ff0000"` to opaque red, `"rgb(0,128,0)"` to
opaque green, `"rgba(0,0,255,128)"` to blue at alpha 128,
`"rgb(50%,50%,50%)"` to a color whose three color channels are 127
(percentages scaled by 2.55 and truncated), `"transparent"` to alpha 0, and
`"notacolor"` to alpha 0 with zero RGB. -/
theorem parse_color_examples :
    ParseCssColor ("#fff") = 0xFFFFFFFF ∧
      ParseCssColor ("#ff0000") = 0xFFFF0000 ∧
      ParseCssColor ("rgb(0,128,0)") = 0xFF008000 ∧
      ParseCssColor ("rgba(0,0,255,128)") = 0x800000FF ∧
      (redOf (ParseCssColor ("rgb(50%,50%,50%)")) = 127 ∧
        greenOf (ParseCssColor ("rgb(50%,50%,50%)")) = 127 ∧
        blueOf (ParseCssColor ("rgb(50%,50%,50%)")) = 127) ∧
      alphaOf (ParseCssColor ("transparent")) = 0 ∧
      (alphaOf (ParseCssColor ("notacolor")) = 0 ∧
        redOf (ParseCssColor ("notacolor")) = 0 ∧
        greenOf (ParseCssColor ("notacolor")) = 0 ∧
        blueOf (ParseCssColor ("notacolor")) = 0) := by
  decide

/-- C8: an input matching none of the recognized forms — both hex forms, the
four `rgb`/`rgba` integer and percentage forms, and the named-color table —
parses to fully transparent black (`MKARGB(0,0,0,0)`), not an error. -/
theorem parse_color_fallback (color : String)
    (h1 : parseHashHex3 color.toList = none) (h2 : parseHashHex6 color.toList = none)
    (h3 : parseRgbInt color.toList = none) (h4 : parseRgbaInt color.toList = none)
    (h5 : parseRgbPct color.toList = none) (h6 : parseRgbaPct color.toList = none)
    (h7 : lookupKnownColor color = none) :
    ParseCssColor color = MKARGB 0 0 0 0 := by
  simp only [ParseCssColor, h1, h2, h3, h4, h5, h6, h7]

/-- C8 witness. -/
theorem parse_color_fallback_witness : ParseCssColor ("not-a-color!") = MKARGB 0 0 0 0 :=
  parse_color_fallback ("not-a-color!") (by decide) (by decide) (by decide) (by decide)
    (by decide) (by decide) (by decide)

theorem dropLit_sound : ∀ {lit cs rest : List Char}, dropLit lit cs = some rest →
    cs = lit ++ rest := by
  intro lit
  induction lit with
  | nil =>
      intro cs rest h
      simpa [dropLit] using Option.some.inj h
  | cons l ls ih =>
      intro cs rest h
      cases cs with
      | nil => exact absurd h (by simp [dropLit])
      | cons c cs' =>
          simp only [dropLit] at h
          by_cases hc : c = l
          · rw [if_pos hc] at h
            rw [hc, List.cons_append, ← ih h]
          · rw [if_neg hc] at h
            exact absurd h (by simp)

theorem parseFloatNum_structure {cs : List Char} {q : Rat} {rest1 : List Char}
    (h : parseFloatNum cs = some (q, rest1)) :
    ∃ n rest0, parseNum cs = some (n, rest0) ∧
      (rest0 = rest1 ∨ ∃ rmid, rest0 = '.' :: rmid) := by
  unfold parseFloatNum at h
  cases hn : parseNum cs with
  | none => rw [hn] at h; exact absurd h (by simp)
  | some pr =>
      obtain ⟨n, rest0⟩ := pr
      rw [hn] at h
      dsimp only at h
      refine ⟨n, rest0, rfl, ?_⟩
      split at h
      · next rest2 => exact Or.inr ⟨rest2, rfl⟩
      · next =>
          left
          simp only [Option.some.injEq, Prod.mk.injEq] at h
          exact h.2

theorem parseRgbPct_shape {cs : List Char} {fr fg fb : Rat}
    (h : parseRgbPct cs = some (fr, fg, fb)) :
    ∃ rest rest1 rest2, cs = 'r' :: 'g' :: 'b' :: '(' :: rest ∧
      parseFloatNum rest = some (fr, rest1) ∧ dropLit ['%', ','] rest1 = some rest2 := by
  unfold parseRgbPct at h
  cases hd : dropLit (String.toList ("rgb(")) cs with
  | none => rw [hd] at h; exact absurd h (by simp)
  | some cs1 =>
      rw [hd] at h
      dsimp only at h
      have hcs : cs = 'r' :: 'g' :: 'b' :: '(' :: cs1 := dropLit_sound hd
      cases hf : parseFloatNum cs1 with
      | none => rw [hf] at h; exact absurd h (by simp)
      | some pr =>
          obtain ⟨q1, rest1⟩ := pr
          rw [hf] at h
          dsimp only at h
          cases hdp : dropLit ['%', ','] rest1 with
          | none => rw [hdp] at h; exact absurd h (by simp)
          | some rest2 =>
              rw [hdp] at h
              dsimp only at h
              have hq1 : q1 = fr := by
                cases hf2 : parseFloatNum rest2 with
                | none => rw [hf2] at h; exact absurd h (by simp)
                | some pr2 =>
                    obtain ⟨q2, r2⟩ := pr2
                    rw [hf2] at h
                    dsimp only at h
                    cases hdp2 : dropLit ['%', ','] r2 with
                    | none => rw [hdp2] at h; exact absurd h (by simp)
                    | some r3 =>
                        rw [hdp2] at h
                        dsimp only at h
                        cases hf3 : parseFloatNum r3 with
                        | none => rw [hf3] at h; exact absurd h (by simp)
                        | some pr3 =>
                            obtain ⟨q3, r4⟩ := pr3
                            rw [hf3] at h
                            dsimp only at h
                            cases hdp3 : dropLit ['%', ')'] r4 with
                            | none => rw [hdp3] at h; exact absurd h (by simp)
                            | some r5 =>
                                rw [hdp3] at h
                                dsimp only at h
                                simp only [Option.some.injEq, Prod.mk.injEq] at h
                                exact h.1
              subst hq1
              exact ⟨cs1, rest1, rest2, hcs, hf, hdp⟩

theorem parseHashHex3_r (cs : List Char) : parseHashHex3 ('r' :: cs) = none := rfl

theorem parseHashHex6_r (cs : List Char) : parseHashHex6 ('r' :: cs) = none := rfl

theorem parseRgbaInt_rgbparen (rest : List Char) :
    parseRgbaInt ('r' :: 'g' :: 'b' :: '(' :: rest) = none := rfl

theorem parseRgbInt_of_pct {rest rest1 rest2 : List Char} {fr : Rat}
    (hfl : parseFloatNum rest = some (fr, rest1))
    (hdp : dropLit ['%', ','] rest1 = some rest2) :
    parseRgbInt ('r' :: 'g' :: 'b' :: '(' :: rest) = none := by
  obtain ⟨n, rest0, hnum, hcase⟩ := parseFloatNum_structure hfl
  have hcomma : dropLit [','] rest0 = none := by
    rcases hcase with hA | ⟨rmid, hB⟩
    · rw [hA, dropLit_sound hdp]
      rfl
    · rw [hB]
      rfl
  have hlit : dropLit (String.toList ("rgb(")) ('r' :: 'g' :: 'b' :: '(' :: rest) =
      some rest := rfl
  unfold parseRgbInt
  rw [hlit]
  dsimp only
  rw [hnum]
  dsimp only
  rw [hcomma]

theorem truncScale_lt {x : Rat} (hx : x ≤ 100) : truncScale x < 256 := by
  unfold truncScale
  have hden : 0 < x.den := Nat.pos_of_ne_zero x.den_nz
  have hpos : 0 < x.den * 20 := by omega
  rw [Nat.div_lt_iff_lt_mul hpos]
  rcases le_or_lt x.num 0 with hneg | hposn
  · have : x.num.toNat = 0 := Int.toNat_of_nonpos hneg
    rw [this]
    omega
  · have hq : x = (x.num : ℚ) / (x.den : ℚ) := (Rat.num_div_den x).symm
    have hdenq : (0 : ℚ) < (x.den : ℚ) := by
      exact_mod_cast hden
    have hnum : (x.num : ℚ) ≤ 100 * (x.den : ℚ) := by
      rw [hq] at hx
      exact (div_le_iff₀ hdenq).1 hx
    have hnum' : x.num ≤ 100 * (x.den : ℤ) := by exact_mod_cast hnum
    omega

/-- C9 (amended): for every `rgb(r%,g%,b%)` input whose three percentages are
at most 100 (so every scaled channel fits in its byte), the parsed result's
alpha channel is `2` — the integer truncation of `1.0 * 2.55` used as the
default alpha — and in particular not `255`: the result is never opaque.
(Without the bound, a channel scaled past 255 bleeds into the alpha byte —
see the counterexample.) -/
theorem parse_pct_default_alpha (color : String) (fr fg fb : Rat)
    (hp : parseRgbPct color.toList = some (fr, fg, fb))
    (hr : fr ≤ 100) (hg : fg ≤ 100) (hb : fb ≤ 100) :
    alphaOf (ParseCssColor color) = 2 ∧ alphaOf (ParseCssColor color) ≠ 255 := by
  obtain ⟨rest, rest1, rest2, hcs, hfl, hdp⟩ := parseRgbPct_shape hp
  have h1 : parseHashHex3 color.toList = none := by rw [hcs]; exact parseHashHex3_r _
  have h2 : parseHashHex6 color.toList = none := by rw [hcs]; exact parseHashHex6_r _
  have h3 : parseRgbInt color.toList = none := by rw [hcs]; exact parseRgbInt_of_pct hfl hdp
  have h4 : parseRgbaInt color.toList = none := by rw [hcs]; exact parseRgbaInt_rgbparen _
  have hval : ParseCssColor color =
      MKARGB (truncScale 1) (truncScale fr) (truncScale fg) (truncScale fb) := by
    simp only [ParseCssColor, h1, h2, h3, h4, hp]
  have ht1 : truncScale 1 = 2 := by
    simp [truncScale, Rat.num_one, Rat.den_one]
  have halpha : alphaOf (ParseCssColor color) = 2 := by
    rw [hval, ht1]
    exact alphaOf_MKARGB (by norm_num) (truncScale_lt hr) (truncScale_lt hg)
      (truncScale_lt hb)
  exact ⟨halpha, by rw [halpha]; norm_num⟩

/-- C9 counterexample: for the percentage-form input `"rgb(200%,0%,0%)"`
(scaled red channel `510`, which overflows its byte) the parsed result's
alpha channel is `3`, not `2` — the claim's universal statement fails. -/
theorem parse_pct_alpha_counterexample :
    parseRgbPct (String.toList ("rgb(200%,0%,0%)")) = some (200, 0, 0) ∧
      alphaOf (ParseCssColor ("rgb(200%,0%,0%)")) = 3 := by
  decide

/-! ### Witnesses -/

/-- C1 witness: two consecutive `AllocFontSize(14)` calls on the empty table
return the identical handle and leave one interned instance. -/
theorem alloc_interning_unique_witness :
    runAlloc (AllocCall.fontSize 14) [] =
        some (⟨0, ⟨PropType.PropFontSize, PropPayload.fontSize 14⟩⟩,
          [⟨PropType.PropFontSize, PropPayload.fontSize 14⟩]) ∧
      runAlloc (AllocCall.fontSize 14)
          [⟨PropType.PropFontSize, PropPayload.fontSize 14⟩] =
        some (⟨0, ⟨PropType.PropFontSize, PropPayload.fontSize 14⟩⟩,
          [⟨PropType.PropFontSize, PropPayload.fontSize 14⟩]) :=
  ⟨by decide,
    alloc_interning_unique (AllocCall.fontSize 14) (AllocCall.fontSize 14) []
      [⟨PropType.PropFontSize, PropPayload.fontSize 14⟩]
      ⟨0, ⟨PropType.PropFontSize, PropPayload.fontSize 14⟩⟩ (by decide) (by decide)⟩

/-- C2 witness: a child overriding the parent's font size resolves to the
child's property. -/
theorem findProp_child_precedence_witness :
    FindProp
        (some (Style.child [⟨0, ⟨PropType.PropFontSize, PropPayload.fontSize 8⟩⟩]
          (Style.root [⟨1, ⟨PropType.PropFontSize, PropPayload.fontSize 14⟩⟩])))
        none PropType.PropFontSize =
      some ⟨0, ⟨PropType.PropFontSize, PropPayload.fontSize 8⟩⟩ ∧
      FindProp
          (some (Style.child [⟨0, ⟨PropType.PropFontSize, PropPayload.fontSize 8⟩⟩]
            (Style.root [⟨1, ⟨PropType.PropFontSize, PropPayload.fontSize 14⟩⟩])))
          none PropType.PropFontSize ≠
        some ⟨1, ⟨PropType.PropFontSize, PropPayload.fontSize 14⟩⟩ :=
  findProp_child_precedence
    [⟨0, ⟨PropType.PropFontSize, PropPayload.fontSize 8⟩⟩]
    (Style.root [⟨1, ⟨PropType.PropFontSize, PropPayload.fontSize 14⟩⟩])
    PropType.PropFontSize
    ⟨0, ⟨PropType.PropFontSize, PropPayload.fontSize 8⟩⟩
    ⟨1, ⟨PropType.PropFontSize, PropPayload.fontSize 14⟩⟩
    (by decide) (by decide) (by decide) (by decide)

/-- C3 witness: a tag absent from the first chain resolves from the second
chain. -/
theorem findProp_second_chain_fallback_witness :
    FindProp (some (Style.root []))
        (some (Style.root [⟨0, ⟨PropType.PropFontWeight, PropPayload.fontWeight 1⟩⟩]))
        PropType.PropFontWeight =
      some ⟨0, ⟨PropType.PropFontWeight, PropPayload.fontWeight 1⟩⟩ :=
  findProp_second_chain_fallback (some (Style.root []))
    (some (Style.root [⟨0, ⟨PropType.PropFontWeight, PropPayload.fontWeight 1⟩⟩]))
    PropType.PropFontWeight
    ⟨0, ⟨PropType.PropFontWeight, PropPayload.fontWeight 1⟩⟩
    (by decide) (by decide)

/-- C4 witness: re-requesting the font for the same resolved property
identities returns the cached handle and leaves the cache unchanged. -/
theorem cachedFont_identity_reuse_witness :
    CachedFontFromProps
        (some (Style.root
          [⟨0, ⟨PropType.PropFontName, PropPayload.fontName ("A")⟩⟩,
            ⟨1, ⟨PropType.PropFontSize, PropPayload.fontSize 14⟩⟩,
            ⟨2, ⟨PropType.PropFontWeight, PropPayload.fontWeight 1⟩⟩]))
        none
        ⟨[⟨⟨0, ⟨PropType.PropFontName, PropPayload.fontName ("A")⟩⟩,
            ⟨1, ⟨PropType.PropFontSize, PropPayload.fontSize 14⟩⟩,
            ⟨2, ⟨PropType.PropFontWeight, PropPayload.fontWeight 1⟩⟩, some 0⟩], 1⟩ =
      some (0,
        ⟨[⟨⟨0, ⟨PropType.PropFontName, PropPayload.fontName ("A")⟩⟩,
            ⟨1, ⟨PropType.PropFontSize, PropPayload.fontSize 14⟩⟩,
            ⟨2, ⟨PropType.PropFontWeight, PropPayload.fontWeight 1⟩⟩, some 0⟩], 1⟩) :=
  cachedFont_identity_reuse
    (some (Style.root
      [⟨0, ⟨PropType.PropFontName, PropPayload.fontName ("A")⟩⟩,
        ⟨1, ⟨PropType.PropFontSize, PropPayload.fontSize 14⟩⟩,
        ⟨2, ⟨PropType.PropFontWeight, PropPayload.fontWeight 1⟩⟩]))
    none
    (some (Style.root
      [⟨0, ⟨PropType.PropFontName, PropPayload.fontName ("A")⟩⟩,
        ⟨1, ⟨PropType.PropFontSize, PropPayload.fontSize 14⟩⟩,
        ⟨2, ⟨PropType.PropFontWeight, PropPayload.fontWeight 1⟩⟩]))
    none
    ⟨[], 0⟩
    ⟨[⟨⟨0, ⟨PropType.PropFontName, PropPayload.fontName ("A")⟩⟩,
        ⟨1, ⟨PropType.PropFontSize, PropPayload.fontSize 14⟩⟩,
        ⟨2, ⟨PropType.PropFontWeight, PropPayload.fontWeight 1⟩⟩, some 0⟩], 1⟩
    ⟨0, ⟨PropType.PropFontName, PropPayload.fontName ("A")⟩⟩
    ⟨1, ⟨PropType.PropFontSize, PropPayload.fontSize 14⟩⟩
    ⟨2, ⟨PropType.PropFontWeight, PropPayload.fontWeight 1⟩⟩
    0 (by decide) (by decide) (by decide)

/-- C5 witness: setting size 8 then size 14 on an empty style leaves exactly
one font-size property, equal to the second one. -/
theorem style_set_override_witness :
    (((Style.root []).Set ⟨0, ⟨PropType.PropFontSize, PropPayload.fontSize 8⟩⟩).Set
          ⟨1, ⟨PropType.PropFontSize, PropPayload.fontSize 14⟩⟩).props =
        ((Style.root []).Set ⟨0, ⟨PropType.PropFontSize, PropPayload.fontSize 8⟩⟩).props.map
          (fun q =>
            if q.val.type = (⟨0, ⟨PropType.PropFontSize, PropPayload.fontSize 8⟩⟩ :
                PropPtr).val.type
            then ⟨1, ⟨PropType.PropFontSize, PropPayload.fontSize 14⟩⟩ else q) ∧
      propsOfTag (⟨0, ⟨PropType.PropFontSize, PropPayload.fontSize 8⟩⟩ : PropPtr).val.type
          (((Style.root []).Set ⟨0, ⟨PropType.PropFontSize, PropPayload.fontSize 8⟩⟩).Set
            ⟨1, ⟨PropType.PropFontSize, PropPayload.fontSize 14⟩⟩).props =
        [⟨1, ⟨PropType.PropFontSize, PropPayload.fontSize 14⟩⟩] ∧
      (((Style.root []).Set ⟨0, ⟨PropType.PropFontSize, PropPayload.fontSize 8⟩⟩).Set
            ⟨1, ⟨PropType.PropFontSize, PropPayload.fontSize 14⟩⟩).props.length =
        ((Style.root []).Set
            ⟨0, ⟨PropType.PropFontSize, PropPayload.fontSize 8⟩⟩).props.length ∧
      (((Style.root []).Set ⟨0, ⟨PropType.PropFontSize, PropPayload.fontSize 8⟩⟩).Set
            ⟨1, ⟨PropType.PropFontSize, PropPayload.fontSize 14⟩⟩).inheritsFrom =
        (Style.root []).inheritsFrom :=
  style_set_override (Style.root [])
    ⟨0, ⟨PropType.PropFontSize, PropPayload.fontSize 8⟩⟩
    ⟨1, ⟨PropType.PropFontSize, PropPayload.fontSize 14⟩⟩
    (by decide) (by decide)

/-- C6 witness: the four solid-color constructors assert on the non-color tag
`PropFontName`. -/
theorem allocColorSolid_noncolor_asserts_witness :
    AllocColorSolid PropType.PropFontName 0 [] = none ∧
      AllocColorSolidARGBInts PropType.PropFontName 255 1 2 3 [] = none ∧
      AllocColorSolidRGBInts PropType.PropFontName 1 2 3 [] = none ∧
      AllocColorSolidStr PropType.PropFontName ("red") [] = none :=
  allocColorSolid_noncolor_asserts PropType.PropFontName (by decide) [] 0 255 1 2 3 ("red")

/-- C9 witness: `"rgb(50%,50%,50%)"` parses with alpha 2 — not an opaque
color. -/
theorem parse_pct_default_alpha_witness :
    alphaOf (ParseCssColor ("rgb(50%,50%,50%)")) = 2 ∧
      alphaOf (ParseCssColor ("rgb(50%,50%,50%)")) ≠ 255 :=
  parse_pct_default_alpha ("rgb(50%,50%,50%)") 50 50 50 (by decide) (by decide) (by decide)
    (by decide)

end MuiCss
